import Mathlib

/-!
Verification development for the cartoframes client library.

We give a shallow embedding of the parts of the code base that the
specification talks about:

* the catalog repository `VariableRepository` (variable_repo.py),
* the BigQuery tileset generator `GBQManager` (gbq_manager.py),
* the geocoding service `Geocoding` (geocoding.py), both the
  effect-trace model of `_geocode` and the row-level model of
  `_cached_geocode`.

Remote services (the CARTO SQL API, BigQuery, the repository DB client)
are modelled as explicit environments/parameters; each method of the
code becomes a pure function returning its result together with the
trace of remote actions it performs, so that claims about which queries
run, and in which order, become statements about those traces.
-/

namespace VariableRepo

/-- A catalog DB row, kept abstract: the repository passes rows through
without inspecting them. -/
structure Row where
  payload : String
  deriving DecidableEq, Repr

/-- Embedding of `RepoClient`: `get_variables(field, value)` returns the
rows matching the (optional) filter.  The client itself lives behind a
remote service, so it is modelled as an arbitrary function from the
filter arguments (both default to `None` in the code) to a row list. -/
structure RepoClient where
  get_variables : Option String → Option String → List Row

/-- Embedding of `cartoframes.data.observatory.variable.Variable`:
a wrapper holding one row. -/
structure Variable where
  data : Row
  deriving DecidableEq, Repr

/-- Embedding of `Variables`: a wrapper holding a list of rows. -/
structure Variables where
  items : List Row
  deriving DecidableEq, Repr

/-- `VariableRepository._from_repo`: returns the row unchanged
(the `TODO: Map properties` body is `return row`). -/
def from_repo (row : Row) : Row :=
  row

/-- `VariableRepository._to_variable`. -/
def to_variable (result : Row) : Variable :=
  ⟨result⟩

/-- `VariableRepository._to_variables`: `None` on an empty result list,
otherwise a `Variables` wrapping the mapped rows. -/
def to_variables (results : List Row) : Option Variables :=
  if results.length = 0 then none
  else some ⟨results.map from_repo⟩

/-- `VariableRepository.get_all`: `get_variables` with no filter. -/
def get_all (client : RepoClient) : Option Variables :=
  to_variables (client.get_variables none none)

/-- The message of the `DiscoveryException` raised by `get_by_id`. -/
def discovery_error_message : String :=
  "The id does not correspond with any existing variable in the catalog. You can check the full list of available variables with Variables.get_all()"

/-- `VariableRepository.get_by_id`: filters on the 'id' field; raises
`DiscoveryException` when no row matches, else wraps the first row. -/
def get_by_id (client : RepoClient) (variable_id : String) : Except String Variable :=
  match client.get_variables (some "id") (some variable_id) with
  | [] => Except.error discovery_error_message
  | r :: _ => Except.ok (to_variable (from_repo r))

/-- `VariableRepository.get_by_dataset`: filters on 'dataset_id'. -/
def get_by_dataset (client : RepoClient) (dataset_id : String) : Option Variables :=
  to_variables (client.get_variables (some "dataset_id") (some dataset_id))

/-- `VariableRepository.get_by_variable_group`: filters on
'variable_group_id'. -/
def get_by_variable_group (client : RepoClient) (variable_group_id : String) : Option Variables :=
  to_variables (client.get_variables (some "variable_group_id") (some variable_group_id))

end VariableRepo

namespace GBQ

/-- `MIN_MEDIUM_LEVEL_ZOOM` (gbq_manager.py). -/
def MIN_MEDIUM_LEVEL_ZOOM : Int := 9

/-- `MAX_MEDIUM_LEVEL_ZOOM` (gbq_manager.py). -/
def MAX_MEDIUM_LEVEL_ZOOM : Int := 11

/-- `DEFAULT_ZOOMS` (gbq_manager.py). -/
def DEFAULT_ZOOMS : List Int := [0, 4, 8, 12, 14]

/-- `MAX_PARTITIONS` (gbq_manager.py). -/
def MAX_PARTITIONS : Int := 10000

/-- `MAX_QUADKEY_ZOOM` (gbq_manager.py). -/
def MAX_QUADKEY_ZOOM : Nat := 20

/-- `zooms if zooms else DEFAULT_ZOOMS`: Python truthiness makes both
`None` and the empty list fall back to the default list. -/
def effectiveZooms (zooms : Option (List Int)) : List Int :=
  match zooms with
  | none => DEFAULT_ZOOMS
  | some zs => if zs.isEmpty then DEFAULT_ZOOMS else zs

/-- One templated-SQL execution of the tileset generator, tagged with the
data that selects the template instance. -/
inductive TilesetQuery where
  | lowLevel (zooms : List Int)
  | mediumLevel (zoom : Int)
  | highLevel (zoom : Int)
  deriving DecidableEq, Repr

/-- The `[zoom for zoom in zooms_ if zoom < MIN_MEDIUM_LEVEL_ZOOM]` band. -/
def lowLevelZooms (zs : List Int) : List Int :=
  zs.filter (fun z => z < MIN_MEDIUM_LEVEL_ZOOM)

/-- The `zoom >= MIN_MEDIUM_LEVEL_ZOOM and zoom <= MAX_MEDIUM_LEVEL_ZOOM` band. -/
def mediumLevelZooms (zs : List Int) : List Int :=
  zs.filter (fun z => MIN_MEDIUM_LEVEL_ZOOM ≤ z ∧ z ≤ MAX_MEDIUM_LEVEL_ZOOM)

/-- The `zoom > MAX_MEDIUM_LEVEL_ZOOM` band. -/
def highLevelZooms (zs : List Int) : List Int :=
  zs.filter (fun z => MAX_MEDIUM_LEVEL_ZOOM < z)

/-- `GBQManager.insert_low_level_zoom_data`: returns without executing
anything when the low band is empty, else executes one query carrying the
whole band. -/
def insert_low_level_zoom_data (zooms : Option (List Int)) : List TilesetQuery :=
  let low_level_zooms := lowLevelZooms (effectiveZooms zooms)
  if low_level_zooms.isEmpty then []
  else [TilesetQuery.lowLevel low_level_zooms]

/-- `GBQManager.insert_medium_level_zoom_data`: returns without executing
anything when the medium band is empty, else executes one query per zoom,
in list order. -/
def insert_medium_level_zoom_data (zooms : Option (List Int)) : List TilesetQuery :=
  let medium_level_zooms := mediumLevelZooms (effectiveZooms zooms)
  if medium_level_zooms.isEmpty then []
  else medium_level_zooms.map TilesetQuery.mediumLevel

/-- `GBQManager.insert_high_level_zoom_data`: returns without executing
anything when the high band is empty, else executes one query per zoom,
in list order. -/
def insert_high_level_zoom_data (zooms : Option (List Int)) : List TilesetQuery :=
  let high_level_zooms := highLevelZooms (effectiveZooms zooms)
  if high_level_zooms.isEmpty then []
  else high_level_zooms.map TilesetQuery.highLevel

/-- The quadkey-zoom search loop of `GBQManager.create_empty_tileset`.
`span z` stands for `max_integer_quadkey - min_integer_quadkey` computed
from the bounding box at zoom `z` (via `mercantile.tile` / `quadkey`);
the loop body only looks at that difference.  The loop is `while True`
with a `break`; we give it fuel, and prove below that the fuel is never
exhausted because the `quadkey_zoom == MAX_QUADKEY_ZOOM` arm of the break
fires at the latest when `z` reaches 20. -/
def quadkeyLoop (span : Nat → Int) : Nat → Nat → Nat
  | 0, z => z
  | fuel + 1, z =>
    if MAX_PARTITIONS ≤ span z ∨ z = MAX_QUADKEY_ZOOM then z
    else quadkeyLoop span fuel (z + 1)

/-- The `quadkey_zoom` computed by `create_empty_tileset`: the loop is
entered with `quadkey_zoom = 1`. -/
def guessQuadkeyZoom (span : Nat → Int) : Nat :=
  quadkeyLoop span MAX_QUADKEY_ZOOM 1

end GBQ

namespace GeocodingSvc

/-- One row of a summary query result: a `gc_state` label and a count. -/
structure SummaryRow where
  gc_state : String
  count : Nat
  deriving DecidableEq, Repr

/-- A SQL-API query result, as the code reads it: `total_rows` and
`rows`.  `Option QueryResult` stands for a possibly falsy result. -/
structure QueryResult where
  total_rows : Nat
  rows : List SummaryRow
  deriving DecidableEq, Repr

/-- Environment modelling the remote CARTO SQL API during one `_geocode`
run: the results the remote side hands back to each query the method
issues, and whether the advisory table lock can be acquired. -/
structure GEnv where
  existsColumnResult : Option QueryResult
  summaryResult : Option QueryResult
  lockAvailable : Bool
  geocodeFails : Bool
  geocodeErrorMsg : String
  quotaMatch : Option (Nat × Nat)
  posteriorResult : Option QueryResult

/-- Remote actions performed by `Geocoding.geocode` / `_geocode`, in
order of execution. -/
inductive GAction where
  | existsColumnQuery
  | firstTimeSummaryQuery
  | priorSummaryQuery
  | lockAcquire
  | alterTableAddColumns
  | geocodeLongRunningQuery
  | lockRelease
  | posteriorSummaryQuery
  | setupInputTable
  | readOutputTable
  | deleteTemporaryTable
  deriving DecidableEq, Repr

/-- The six `gc_state` counters `_geocode` initialises to zero. -/
def GC_STATES : List String :=
  ["new_geocoded", "new_nongeocoded",
   "changed_geocoded", "changed_nongeocoded",
   "previously_geocoded", "previously_nongeocoded"]

/-- `summary = {s: 0 for s in [...]}` followed by
`summary[gc_state] = count` for each result row; modelled as a total map
from state labels to counts, every label starting at 0. -/
def applySummaryRows (rows : List SummaryRow) : String → Nat :=
  rows.foldl (fun s r => Function.update s r.gc_state r.count) (fun _ => 0)

/-- The `metadata` dictionary returned by `_geocode` (the `output` dict),
with `Option` for keys that are only sometimes set. -/
structure GOutput where
  total_rows : Nat := 0
  required_quota : Nat := 0
  new_geocoded : Nat := 0
  new_nongeocoded : Nat := 0
  changed_geocoded : Nat := 0
  changed_nongeocoded : Nat := 0
  previously_geocoded : Nat := 0
  previously_nongeocoded : Nat := 0
  error : Option String := none
  aborted : Bool := false
  remaining_quota : Option Nat := none
  estimated_cost : Option Nat := none
  successfully_geocoded : Option Nat := none
  deriving DecidableEq, Repr

/-- Modelled from the spec: `geocoding_utils.set_pre_summary_info` is not
under src/.  Per the spec, the metadata reports a summary classifying the
table's rows among the six counters, and a `required_quota` counting the
rows that will be geocoded, i.e. the new and changed ones. -/
def set_pre_summary_info (summary : String → Nat) : GOutput :=
  { total_rows := (GC_STATES.map summary).sum
    required_quota :=
      summary "new_geocoded" + summary "new_nongeocoded" +
      summary "changed_geocoded" + summary "changed_nongeocoded"
    new_geocoded := summary "new_geocoded"
    new_nongeocoded := summary "new_nongeocoded"
    changed_geocoded := summary "changed_geocoded"
    changed_nongeocoded := summary "changed_nongeocoded"
    previously_geocoded := summary "previously_geocoded"
    previously_nongeocoded := summary "previously_nongeocoded" }

/-- Modelled from the spec: `geocoding_utils.set_post_summary_info` is
not under src/.  Per the spec it completes the before/after summary from
the posterior summary query result, recording how many rows ended up
geocoded. -/
def set_post_summary_info (result : Option QueryResult) (output : GOutput) : GOutput :=
  match result with
  | none => output
  | some r =>
    match r.rows with
    | [] => output
    | row :: _ => { output with successfully_geocoded := some row.count }

/-- `if not result or result.get('total_rows', 0) == 0` in
`_execute_prior_summary`: the first-time variant is chosen when the
`carto_geocode_hash` column does not yet exist. -/
def firstTime (env : GEnv) : Bool :=
  match env.existsColumnResult with
  | none => true
  | some r => r.total_rows = 0

/-- `Geocoding._execute_prior_summary`: runs the column-existence check,
then either the first-time summary query or the prior summary query. -/
def execute_prior_summary (env : GEnv) : Option QueryResult × List GAction :=
  (env.summaryResult,
   [GAction.existsColumnQuery,
    if firstTime env then GAction.firstTimeSummaryQuery else GAction.priorSummaryQuery])

/-- The error message `_geocode` stores when the table lock is taken. -/
def already_geocoding_message : String :=
  "The table is already being geocoded"

/-- The summary map `_geocode` builds from the prior summary query's
rows (the query result is the `summaryResult` of the environment,
`execute_prior_summary` passes it through). -/
def summaryOf (env : GEnv) : String → Nat :=
  applySummaryRows (match env.summaryResult with
    | none => []
    | some r => r.rows)

/-- `Geocoding._geocode`: prior summary, then — only when
`required_quota > 0` and not a dry run — the `TableGeocodingLock` block
(`ALTER TABLE` plus the long-running geocoding query, or an abort when
the lock is unavailable), then the posterior summary when not aborted.
`TableGeocodingLock` is not under src/; modelled from the spec as an
advisory lock whose acquisition attempt yields whether it was acquired,
released on block exit when it was. -/
def geocode_internal (env : GEnv) (dry_run : Bool) : GOutput × List GAction :=
  if 0 < (set_pre_summary_info (summaryOf env)).required_quota ∧ ¬dry_run then
    if ¬env.lockAvailable then
      ({ set_pre_summary_info (summaryOf env) with
           error := some already_geocoding_message, aborted := true },
       (execute_prior_summary env).2 ++ [GAction.lockAcquire])
    else if env.geocodeFails then
      ({ set_pre_summary_info (summaryOf env) with
           error := some env.geocodeErrorMsg
           remaining_quota := env.quotaMatch.map Prod.fst
           estimated_cost := env.quotaMatch.map Prod.snd
           aborted := true },
       (execute_prior_summary env).2 ++
         [GAction.lockAcquire, GAction.alterTableAddColumns,
          GAction.geocodeLongRunningQuery, GAction.lockRelease])
    else
      (set_post_summary_info env.posteriorResult (set_pre_summary_info (summaryOf env)),
       (execute_prior_summary env).2 ++
         [GAction.lockAcquire, GAction.alterTableAddColumns,
          GAction.geocodeLongRunningQuery, GAction.lockRelease] ++
         [GAction.posteriorSummaryQuery])
  else
    (set_pre_summary_info (summaryOf env), (execute_prior_summary env).2)

/-- The value of `geocode`'s named tuple: the `data` CartoDataFrame (kept
abstract, `Unit` marks a table read by `read_carto`) and the metadata. -/
structure GeocodeResult where
  data : Option Unit
  metadata : GOutput
  deriving DecidableEq, Repr

/-- `Geocoding.geocode` (non-cached path): set up the input table
(`_table_for_geocoding`, which uploads/copies regardless of `dry_run`),
run `_geocode`, and either return `data=None` on a dry run or read the
result table back (deleting it when temporary). -/
def geocode (env : GEnv) (is_temporary : Bool) (dry_run : Bool) :
    GeocodeResult × List GAction :=
  if dry_run then
    (⟨none, (geocode_internal env dry_run).1⟩,
     GAction.setupInputTable :: (geocode_internal env dry_run).2)
  else
    (⟨some (), (geocode_internal env dry_run).1⟩,
     GAction.setupInputTable :: (geocode_internal env dry_run).2 ++
       [GAction.readOutputTable] ++
       (if is_temporary then [GAction.deleteTemporaryTable] else []))

end GeocodingSvc

namespace CachedGeocode

/-- One row of the dataframe / of a CARTO table, restricted to the
columns the cached-geocoding reconciliation touches: the four address
components named by the `street`/`city`/`state`/`country` arguments, the
`the_geom` geometry (abstracted to an identifier) and the
`carto_geocode_hash` column (`none` when the column is absent or NULL). -/
structure CRow where
  street : String
  city : String
  state : String
  country : String
  the_geom : Option Nat
  gc_hash : Option String
  deriving DecidableEq, Repr

/-- Modelled from the spec: `geocoding_utils.hash_expr` is not under
src/; it computes a content hash of the four address components of a row.
The hash function itself is kept abstract (a parameter `hashFn`). -/
def hashOf (hashFn : String → String → String → String → String) (r : CRow) : String :=
  hashFn r.street r.city r.state r.country

/-- Remote actions performed by `_cached_geocode`, in execution order. -/
inductive CAction where
  | uploadDataframe (rows : List CRow)
  | addHashColumn
  | updateFromCache
  | deleteCacheTable
  | renameTmpToCache
  | geocodeCacheTable
  deriving DecidableEq, Repr

/-- The effect of the `UPDATE tmp SET hash = table.hash, the_geom =
table.the_geom FROM table WHERE hash_expr = table.hash` statement on one
row of the temporary table: when some cache row's stored hash equals the
row's computed hash, the row receives that cache row's geometry and hash;
otherwise it is untouched.  (SQL `UPDATE ... FROM` joins each target row
with one matching source row; modelled as the first match.) -/
def mergeRow (hashFn : String → String → String → String → String)
    (cache : List CRow) (r : CRow) : CRow :=
  match cache.find? (fun c => c.gc_hash = some (hashOf hashFn r)) with
  | some c => { r with the_geom := c.the_geom, gc_hash := c.gc_hash }
  | none => r

/-- Outcome of `_cached_geocode`: either it falls back to a plain
`geocode` call (replacing the table), or it performs the cached
reconciliation, leaving `mergedTable` as the content of the renamed
cache table that is then re-geocoded. -/
inductive CResult where
  | plainGeocode
  | cachedRun (mergedTable : List CRow) (trace : List CAction)
  deriving DecidableEq, Repr

/-- `Geocoding._cached_geocode`.  `cache` is the current content of the
cache table (`none` when `has_table` is false), `cacheHasHashColumn`
whether its columns include `carto_geocode_hash`, `dfHasHashColumn`
whether the source dataframe has that column, `isTable` whether the
source is a table.  On the cached path it uploads the whole dataframe to
a temporary table, adds the hash column, merges cached geometries via
`UPDATE ... FROM`, deletes the cache table, renames the temporary table
to it, and re-geocodes it. -/
def cached_geocode (hashFn : String → String → String → String → String)
    (df : List CRow) (cache : Option (List CRow))
    (cacheHasHashColumn : Bool) (dfHasHashColumn : Bool) (isTable : Bool) :
    Except String CResult :=
  match cache with
  | none => Except.ok CResult.plainGeocode
  | some cacheRows =>
    if ¬cacheHasHashColumn then
      Except.error "Cache table exists but is not a valid geocode table"
    else if dfHasHashColumn then
      Except.ok CResult.plainGeocode
    else if isTable then
      Except.error "cached geocoding cannot be used with tables"
    else
      Except.ok (CResult.cachedRun
        (df.map (mergeRow hashFn cacheRows))
        [CAction.uploadDataframe df, CAction.addHashColumn,
         CAction.updateFromCache, CAction.deleteCacheTable,
         CAction.renameTmpToCache, CAction.geocodeCacheTable])

/-- The rows uploaded to CARTO over a trace (payloads of
`uploadDataframe` actions). -/
def uploadedRows (trace : List CAction) : List CRow :=
  trace.foldr (fun a acc =>
    match a with
    | CAction.uploadDataframe rows => rows ++ acc
    | _ => acc) []

/-- The claim's notion of 'changed rows', written from the claim's own
words for comparison with the code: the dataframe rows whose content
hash differs from every hash stored in the cache table. -/
def changedRowsSpec (hashFn : String → String → String → String → String)
    (df : List CRow) (cache : List CRow) : List CRow :=
  df.filter (fun r => ¬ cache.any (fun c => c.gc_hash = some (hashOf hashFn r)))

end CachedGeocode

/-!
## Theorems
-/

namespace VariableRepo

lemma map_from_repo_id (l : List Row) : l.map from_repo = l := by
  induction l with
  | nil => rfl
  | cons a t ih => simp [from_repo, ih]

lemma to_variables_of_ne_nil (rows : List Row) (h : rows ≠ []) :
    to_variables rows = some ⟨rows⟩ := by
  unfold to_variables
  rw [if_neg (by simpa using h), map_from_repo_id]

/-- C6: each `VariableRepository` query method is a thin pass-through to
the internal repository client: `get_all` calls `get_variables` with no
filter, `get_by_id` filters on 'id', `get_by_dataset` on 'dataset_id',
`get_by_variable_group` on 'variable_group_id', and the rows returned by
the client are wrapped unchanged into `Variable`/`Variables` objects. -/
theorem variable_repo_pass_through (client : RepoClient) (vid did gid : String) :
    get_all client = to_variables (client.get_variables none none) ∧
    get_by_dataset client did =
      to_variables (client.get_variables (some "dataset_id") (some did)) ∧
    get_by_variable_group client gid =
      to_variables (client.get_variables (some "variable_group_id") (some gid)) ∧
    (∀ rows, client.get_variables none none = rows → rows ≠ [] →
      get_all client = some ⟨rows⟩) ∧
    (∀ r rest, client.get_variables (some "id") (some vid) = r :: rest →
      get_by_id client vid = Except.ok ⟨r⟩) ∧
    (∀ rows, client.get_variables (some "dataset_id") (some did) = rows → rows ≠ [] →
      get_by_dataset client did = some ⟨rows⟩) ∧
    (∀ rows, client.get_variables (some "variable_group_id") (some gid) = rows →
      rows ≠ [] → get_by_variable_group client gid = some ⟨rows⟩) := by
  refine ⟨rfl, rfl, rfl, ?_, ?_, ?_, ?_⟩
  · intro rows hr hne
    unfold get_all
    rw [hr, to_variables_of_ne_nil rows hne]
  · intro r rest hr
    unfold get_by_id
    rw [hr]
    rfl
  · intro rows hr hne
    unfold get_by_dataset
    rw [hr, to_variables_of_ne_nil rows hne]
  · intro rows hr hne
    unfold get_by_variable_group
    rw [hr, to_variables_of_ne_nil rows hne]

/-- Witness for `variable_repo_pass_through` at a one-row client. -/
theorem variable_repo_pass_through_witness :
    get_by_id ⟨fun _ _ => [⟨"row1"⟩]⟩ "x" = Except.ok ⟨⟨"row1"⟩⟩ ∧
    get_all ⟨fun _ _ => [⟨"row1"⟩]⟩ = some ⟨[⟨"row1"⟩]⟩ := by
  refine ⟨?_, ?_⟩
  · exact (variable_repo_pass_through ⟨fun _ _ => [⟨"row1"⟩]⟩ "x" "d" "g").2.2.2.2.1
      ⟨"row1"⟩ [] rfl
  · exact (variable_repo_pass_through ⟨fun _ _ => [⟨"row1"⟩]⟩ "x" "d" "g").2.2.2.1
      [⟨"row1"⟩] rfl (List.cons_ne_nil _ _)

/-- C10: at the repository interface an empty client result set is mapped
to `None` for the collection queries (`get_all`, `get_by_dataset`,
`get_by_variable_group`), while `get_by_id` raises `DiscoveryException`
when no row matches the requested id. -/
theorem variable_repo_empty_results (client : RepoClient) (vid did gid : String) :
    (client.get_variables none none = [] → get_all client = none) ∧
    (client.get_variables (some "dataset_id") (some did) = [] →
      get_by_dataset client did = none) ∧
    (client.get_variables (some "variable_group_id") (some gid) = [] →
      get_by_variable_group client gid = none) ∧
    (client.get_variables (some "id") (some vid) = [] →
      get_by_id client vid = Except.error discovery_error_message) := by
  refine ⟨?_, ?_, ?_, ?_⟩
  · intro h
    unfold get_all
    rw [h]
    rfl
  · intro h
    unfold get_by_dataset
    rw [h]
    rfl
  · intro h
    unfold get_by_variable_group
    rw [h]
    rfl
  · intro h
    unfold get_by_id
    rw [h]

/-- Witness for `variable_repo_empty_results` at the empty client. -/
theorem variable_repo_empty_results_witness :
    get_all ⟨fun _ _ => []⟩ = none ∧
    get_by_dataset ⟨fun _ _ => []⟩ "d" = none ∧
    get_by_variable_group ⟨fun _ _ => []⟩ "g" = none ∧
    get_by_id ⟨fun _ _ => []⟩ "v" = Except.error discovery_error_message := by
  obtain ⟨h1, h2, h3, h4⟩ := variable_repo_empty_results ⟨fun _ _ => []⟩ "v" "d" "g"
  exact ⟨h1 rfl, h2 rfl, h3 rfl, h4 rfl⟩

end VariableRepo

namespace GBQ

lemma effectiveZooms_some (zs : List Int) (h : zs ≠ []) :
    effectiveZooms (some zs) = zs := by
  cases zs with
  | nil => exact absurd rfl h
  | cons a t => rfl

lemma bands_perm (zs : List Int) :
    (lowLevelZooms zs ++ mediumLevelZooms zs ++ highLevelZooms zs).Perm zs := by
  simp only [lowLevelZooms, mediumLevelZooms, highLevelZooms,
    MIN_MEDIUM_LEVEL_ZOOM, MAX_MEDIUM_LEVEL_ZOOM]
  induction zs with
  | nil => simp
  | cons a l ih =>
    simp only [List.filter_cons, decide_eq_true_eq]
    by_cases h1 : a < (9 : Int)
    · have h2 : ¬((9 : Int) ≤ a ∧ a ≤ 11) := by omega
      have h3 : ¬((11 : Int) < a) := by omega
      rw [if_pos h1, if_neg h2, if_neg h3]
      simp only [List.cons_append]
      exact ih.cons a
    · by_cases h2 : a ≤ (11 : Int)
      · have h2' : (9 : Int) ≤ a ∧ a ≤ 11 := by omega
        have h3 : ¬((11 : Int) < a) := by omega
        rw [if_neg h1, if_pos h2', if_neg h3]
        refine ((List.perm_middle.append_right _).trans ?_)
        simp only [List.cons_append]
        exact ih.cons a
      · have h3 : (11 : Int) < a := by omega
        have h2' : ¬((9 : Int) ≤ a ∧ a ≤ 11) := by omega
        rw [if_neg h1, if_neg h2', if_pos h3]
        exact List.perm_middle.trans (ih.cons a)

/-- C7: the tileset generator partitions the requested zooms into three
disjoint bands covering all of them: zooms below 9 go into a single
low-level query, each zoom from 9 to 11 gets its own medium-level query
in list order, each zoom above 11 its own high-level query; an empty band
executes no query, and `zooms = None` falls back to `[0, 4, 8, 12, 14]`. -/
theorem tileset_zoom_bands (zs : List Int) (hzs : zs ≠ []) :
    insert_low_level_zoom_data (some zs) =
      (if lowLevelZooms zs = [] then []
       else [TilesetQuery.lowLevel (lowLevelZooms zs)]) ∧
    insert_medium_level_zoom_data (some zs) =
      (mediumLevelZooms zs).map TilesetQuery.mediumLevel ∧
    insert_high_level_zoom_data (some zs) =
      (highLevelZooms zs).map TilesetQuery.highLevel ∧
    (lowLevelZooms zs ++ mediumLevelZooms zs ++ highLevelZooms zs).Perm zs ∧
    (∀ z ∈ lowLevelZooms zs, z < MIN_MEDIUM_LEVEL_ZOOM) ∧
    (∀ z ∈ mediumLevelZooms zs,
      MIN_MEDIUM_LEVEL_ZOOM ≤ z ∧ z ≤ MAX_MEDIUM_LEVEL_ZOOM) ∧
    (∀ z ∈ highLevelZooms zs, MAX_MEDIUM_LEVEL_ZOOM < z) ∧
    (mediumLevelZooms zs = [] → insert_medium_level_zoom_data (some zs) = []) ∧
    (highLevelZooms zs = [] → insert_high_level_zoom_data (some zs) = []) ∧
    (lowLevelZooms zs = [] → insert_low_level_zoom_data (some zs) = []) ∧
    effectiveZooms none = [0, 4, 8, 12, 14] := by
  have heff := effectiveZooms_some zs hzs
  refine ⟨?_, ?_, ?_, bands_perm zs, ?_, ?_, ?_, ?_, ?_, ?_, rfl⟩
  · unfold insert_low_level_zoom_data
    rw [heff]
    cases hm : lowLevelZooms zs with
    | nil => simp [hm]
    | cons b t => simp [hm]
  · unfold insert_medium_level_zoom_data
    rw [heff]
    cases hm : mediumLevelZooms zs with
    | nil => simp [hm]
    | cons b t => simp [hm]
  · unfold insert_high_level_zoom_data
    rw [heff]
    cases hm : highLevelZooms zs with
    | nil => simp [hm]
    | cons b t => simp [hm]
  · intro z hz
    have := List.mem_filter.mp hz
    exact of_decide_eq_true this.2
  · intro z hz
    have := List.mem_filter.mp hz
    exact of_decide_eq_true this.2
  · intro z hz
    have := List.mem_filter.mp hz
    exact of_decide_eq_true this.2
  · intro hm
    unfold insert_medium_level_zoom_data
    rw [heff, hm]
    rfl
  · intro hm
    unfold insert_high_level_zoom_data
    rw [heff, hm]
    rfl
  · intro hm
    unfold insert_low_level_zoom_data
    rw [heff, hm]
    rfl

/-- Witness for `tileset_zoom_bands` at concrete zoom lists. -/
theorem tileset_zoom_bands_witness :
    insert_medium_level_zoom_data (some [5, 10, 13]) =
      [TilesetQuery.mediumLevel 10] ∧
    insert_low_level_zoom_data (some [12]) = [] := by
  constructor
  · have h := (tileset_zoom_bands [5, 10, 13] (by decide)).2.1
    rw [h]
    rfl
  · exact (tileset_zoom_bands [12] (by decide)).2.2.2.2.2.2.2.2.2.1 (by decide)

lemma quadkeyLoop_spec (span : Nat → Int) :
    ∀ fuel z, z + fuel = 21 → 1 ≤ z → z ≤ 20 →
      z ≤ quadkeyLoop span fuel z ∧
      quadkeyLoop span fuel z ≤ 20 ∧
      (MAX_PARTITIONS ≤ span (quadkeyLoop span fuel z) ∨
        quadkeyLoop span fuel z = MAX_QUADKEY_ZOOM) ∧
      (∀ y, z ≤ y → y < quadkeyLoop span fuel z →
        ¬(MAX_PARTITIONS ≤ span y ∨ y = MAX_QUADKEY_ZOOM)) := by
  intro fuel
  induction fuel with
  | zero =>
    intro z hz h1 h2
    omega
  | succ n ih =>
    intro z hz h1 h2
    simp only [quadkeyLoop]
    by_cases hC : MAX_PARTITIONS ≤ span z ∨ z = MAX_QUADKEY_ZOOM
    · rw [if_pos hC]
      exact ⟨le_refl z, h2, hC, fun y hy1 hy2 => absurd hy2 (Nat.not_lt.mpr hy1)⟩
    · rw [if_neg hC]
      have hz20 : z ≠ 20 := fun h => hC (Or.inr h)
      obtain ⟨ha, hb, hc, hd⟩ := ih (z + 1) (by omega) (by omega) (by omega)
      refine ⟨by omega, hb, hc, ?_⟩
      intro y hy1 hy2
      rcases eq_or_lt_of_le hy1 with h | hlt
      · exact h ▸ hC
      · exact hd y (by omega) hy2

lemma quadkeyLoop_fuel_add (span : Nat → Int) :
    ∀ fuel extra z, z + fuel = 21 → z ≤ 20 →
      quadkeyLoop span (fuel + extra) z = quadkeyLoop span fuel z := by
  intro fuel
  induction fuel with
  | zero =>
    intro extra z hz h2
    omega
  | succ n ih =>
    intro extra z hz h2
    have harr : n + 1 + extra = (n + extra) + 1 := by omega
    rw [harr]
    simp only [quadkeyLoop]
    by_cases hC : MAX_PARTITIONS ≤ span z ∨ z = MAX_QUADKEY_ZOOM
    · rw [if_pos hC, if_pos hC]
    · rw [if_neg hC, if_neg hC]
      have hz20 : z ≠ 20 := fun h => hC (Or.inr h)
      exact ih extra (z + 1) (by omega) (by omega)

/-- C9: for every bounding box (abstracted to its integer-quadkey span
function), the quadkey-zoom search loop of `create_empty_tileset`
terminates — any fuel beyond 20 gives the same answer — and yields a
`quadkey_zoom` with `1 <= quadkey_zoom <= 20`, exiting as soon as the
span reaches `MAX_PARTITIONS` or the zoom reaches `MAX_QUADKEY_ZOOM`:
below the result no zoom satisfies the span condition. -/
theorem quadkey_zoom_search (span : Nat → Int) :
    1 ≤ guessQuadkeyZoom span ∧
    guessQuadkeyZoom span ≤ MAX_QUADKEY_ZOOM ∧
    (MAX_PARTITIONS ≤ span (guessQuadkeyZoom span) ∨
      guessQuadkeyZoom span = MAX_QUADKEY_ZOOM) ∧
    (∀ z, 1 ≤ z → z < guessQuadkeyZoom span → ¬MAX_PARTITIONS ≤ span z) ∧
    (∀ extra, quadkeyLoop span (MAX_QUADKEY_ZOOM + extra) 1 = guessQuadkeyZoom span) := by
  obtain ⟨h1, h2, h3, h4⟩ := quadkeyLoop_spec span 20 1 (by omega) (le_refl 1) (by omega)
  refine ⟨h1, h2, h3, ?_, ?_⟩
  · intro z hz1 hz2 hsp
    exact h4 z hz1 hz2 (Or.inl hsp)
  · intro extra
    exact quadkeyLoop_fuel_add span 20 extra 1 (by omega) (by omega)

/-- Witness for `quadkey_zoom_search` at the constant-zero span. -/
theorem quadkey_zoom_search_witness :
    guessQuadkeyZoom (fun _ => 0) = MAX_QUADKEY_ZOOM ∧
    ¬MAX_PARTITIONS ≤ (0 : Int) := by
  obtain ⟨h1, h2, h3, h4, h5⟩ := quadkey_zoom_search (fun _ => 0)
  constructor
  · rcases h3 with h | h
    · exact absurd h (by decide)
    · exact h
  · exact h4 3 (by decide) (by decide)

end GBQ

namespace GeocodingSvc

lemma geocode_internal_skip (env : GEnv) (dry_run : Bool)
    (h : ¬(0 < (set_pre_summary_info (summaryOf env)).required_quota ∧ ¬dry_run)) :
    geocode_internal env dry_run =
      (set_pre_summary_info (summaryOf env), (execute_prior_summary env).2) := by
  unfold geocode_internal
  rw [if_neg h]

lemma geocode_internal_lock_fail (env : GEnv) (dry_run : Bool)
    (h : 0 < (set_pre_summary_info (summaryOf env)).required_quota ∧ ¬dry_run)
    (hl : env.lockAvailable = false) :
    geocode_internal env dry_run =
      ({ set_pre_summary_info (summaryOf env) with
           error := some already_geocoding_message, aborted := true },
       (execute_prior_summary env).2 ++ [GAction.lockAcquire]) := by
  unfold geocode_internal
  rw [if_pos h, if_pos (by simp [hl])]

lemma geocode_internal_query_error (env : GEnv) (dry_run : Bool)
    (h : 0 < (set_pre_summary_info (summaryOf env)).required_quota ∧ ¬dry_run)
    (hl : env.lockAvailable = true) (hf : env.geocodeFails = true) :
    geocode_internal env dry_run =
      ({ set_pre_summary_info (summaryOf env) with
           error := some env.geocodeErrorMsg
           remaining_quota := env.quotaMatch.map Prod.fst
           estimated_cost := env.quotaMatch.map Prod.snd
           aborted := true },
       (execute_prior_summary env).2 ++
         [GAction.lockAcquire, GAction.alterTableAddColumns,
          GAction.geocodeLongRunningQuery, GAction.lockRelease]) := by
  unfold geocode_internal
  rw [if_pos h, if_neg (by simp [hl]), if_pos hf]

lemma geocode_internal_success (env : GEnv) (dry_run : Bool)
    (h : 0 < (set_pre_summary_info (summaryOf env)).required_quota ∧ ¬dry_run)
    (hl : env.lockAvailable = true) (hf : env.geocodeFails = false) :
    geocode_internal env dry_run =
      (set_post_summary_info env.posteriorResult (set_pre_summary_info (summaryOf env)),
       (execute_prior_summary env).2 ++
         [GAction.lockAcquire, GAction.alterTableAddColumns,
          GAction.geocodeLongRunningQuery, GAction.lockRelease] ++
         [GAction.posteriorSummaryQuery]) := by
  unfold geocode_internal
  rw [if_pos h, if_neg (by simp [hl]), if_neg (by simp [hf])]

lemma mem_prior_trace (env : GEnv) (a : GAction)
    (ha : a ∈ (execute_prior_summary env).2) :
    a = GAction.existsColumnQuery ∨ a = GAction.firstTimeSummaryQuery ∨
    a = GAction.priorSummaryQuery := by
  unfold execute_prior_summary at ha
  cases hft : firstTime env <;> simp [hft] at ha <;> tauto

lemma geocodeQuery_not_mem_prior (env : GEnv) :
    GAction.geocodeLongRunningQuery ∉ (execute_prior_summary env).2 := by
  intro hm
  rcases mem_prior_trace env _ hm with h | h | h <;> cases h

lemma lockAcquire_not_mem_prior (env : GEnv) :
    GAction.lockAcquire ∉ (execute_prior_summary env).2 := by
  intro hm
  rcases mem_prior_trace env _ hm with h | h | h <;> cases h

lemma alter_not_mem_prior (env : GEnv) :
    GAction.alterTableAddColumns ∉ (execute_prior_summary env).2 := by
  intro hm
  rcases mem_prior_trace env _ hm with h | h | h <;> cases h

lemma posterior_not_mem_prior (env : GEnv) :
    GAction.posteriorSummaryQuery ∉ (execute_prior_summary env).2 := by
  intro hm
  rcases mem_prior_trace env _ hm with h | h | h <;> cases h

lemma set_post_aborted (r : Option QueryResult) (o : GOutput) :
    (set_post_summary_info r o).aborted = o.aborted := by
  unfold set_post_summary_info
  rcases r with _ | ⟨tr, _ | ⟨row, t⟩⟩ <;> rfl

/-- C5: with `dry_run=True` no actual geocoding is performed: the lock is
never acquired, the table is never altered, the geocoding query is never
executed, no table is read back, and `geocode` returns a result whose
`data` field is `None` with only the metadata of `_geocode` filled in. -/
theorem dry_run_performs_no_geocoding (env : GEnv) (is_temporary : Bool) :
    (geocode env is_temporary true).1.data = none ∧
    (geocode env is_temporary true).1.metadata = (geocode_internal env true).1 ∧
    GAction.lockAcquire ∉ (geocode env is_temporary true).2 ∧
    GAction.alterTableAddColumns ∉ (geocode env is_temporary true).2 ∧
    GAction.geocodeLongRunningQuery ∉ (geocode env is_temporary true).2 ∧
    GAction.readOutputTable ∉ (geocode env is_temporary true).2 := by
  have hskip : geocode_internal env true =
      (set_pre_summary_info (summaryOf env), (execute_prior_summary env).2) :=
    geocode_internal_skip env true (by simp)
  have htr : (geocode env is_temporary true).2 =
      GAction.setupInputTable :: (execute_prior_summary env).2 := by
    unfold geocode
    rw [if_pos rfl, hskip]
  refine ⟨rfl, ?_, ?_, ?_, ?_, ?_⟩
  · show (geocode_internal env true).1 = (geocode_internal env true).1
    rfl
  · rw [htr]
    intro hm
    rcases List.mem_cons.mp hm with h | h
    · cases h
    · exact lockAcquire_not_mem_prior env h
  · rw [htr]
    intro hm
    rcases List.mem_cons.mp hm with h | h
    · cases h
    · exact alter_not_mem_prior env h
  · rw [htr]
    intro hm
    rcases List.mem_cons.mp hm with h | h
    · cases h
    · exact geocodeQuery_not_mem_prior env h
  · rw [htr]
    intro hm
    rcases List.mem_cons.mp hm with h | h
    · cases h
    · rcases mem_prior_trace env _ h with h' | h' | h' <;> cases h'

/-- C8: when the prior summary yields `required_quota = 0`, the call
changes no remote state: the trace holds only the (read-only) summary
queries — no lock, no `ALTER TABLE`, no geocoding query, no posterior
query — and the returned metadata is exactly the prior-summary output,
not aborted and without error. -/
theorem zero_required_quota_no_side_effects (env : GEnv) (dry_run : Bool)
    (h : (set_pre_summary_info (summaryOf env)).required_quota = 0) :
    geocode_internal env dry_run =
      (set_pre_summary_info (summaryOf env), (execute_prior_summary env).2) ∧
    (∀ a ∈ (geocode_internal env dry_run).2,
      a = GAction.existsColumnQuery ∨ a = GAction.firstTimeSummaryQuery ∨
      a = GAction.priorSummaryQuery) ∧
    (geocode_internal env dry_run).1.aborted = false ∧
    (geocode_internal env dry_run).1.error = none := by
  have hskip := geocode_internal_skip env dry_run (by simp [h])
  refine ⟨hskip, ?_, ?_, ?_⟩
  · intro a ha
    rw [hskip] at ha
    exact mem_prior_trace env a ha
  · rw [hskip]
    rfl
  · rw [hskip]
    rfl

/-- Witness for `zero_required_quota_no_side_effects` at an environment
whose prior summary reports no rows at all. -/
theorem zero_required_quota_witness :
    geocode_internal ⟨none, none, true, false, "", none, none⟩ false =
      (set_pre_summary_info (summaryOf ⟨none, none, true, false, "", none, none⟩),
       (execute_prior_summary ⟨none, none, true, false, "", none, none⟩).2) ∧
    (geocode_internal ⟨none, none, true, false, "", none, none⟩ false).1.aborted = false := by
  have h := zero_required_quota_no_side_effects ⟨none, none, true, false, "", none, none⟩
    false rfl
  exact ⟨h.1, h.2.2.1⟩

end GeocodingSvc

namespace GeocodingSvc

lemma set_post_fields (r : Option QueryResult) (o : GOutput) :
    (set_post_summary_info r o).new_geocoded = o.new_geocoded ∧
    (set_post_summary_info r o).new_nongeocoded = o.new_nongeocoded ∧
    (set_post_summary_info r o).changed_geocoded = o.changed_geocoded ∧
    (set_post_summary_info r o).changed_nongeocoded = o.changed_nongeocoded ∧
    (set_post_summary_info r o).previously_geocoded = o.previously_geocoded ∧
    (set_post_summary_info r o).previously_nongeocoded = o.previously_nongeocoded ∧
    (set_post_summary_info r o).required_quota = o.required_quota ∧
    (set_post_summary_info r o).aborted = o.aborted := by
  unfold set_post_summary_info
  rcases r with _ | ⟨tr, _ | ⟨row, t⟩⟩ <;>
    exact ⟨rfl, rfl, rfl, rfl, rfl, rfl, rfl, rfl⟩

/-- C4: the long-running geocoding query is only ever executed while
holding the table lock — in every trace containing it, it sits between
the lock acquisition and the lock release, and the lock was available —
and whenever the lock cannot be acquired (the acquisition attempt is in
the trace but the lock is taken), no `ALTER TABLE` and no geocoding
query is executed and the metadata has error = 'The table is already
being geocoded' and aborted = True. -/
theorem geocoding_query_only_under_lock (env : GEnv) (dry_run : Bool) :
    (GAction.geocodeLongRunningQuery ∈ (geocode_internal env dry_run).2 →
      env.lockAvailable = true ∧
      ∃ pre mid post,
        (geocode_internal env dry_run).2 =
          pre ++ GAction.lockAcquire :: (mid ++ GAction.lockRelease :: post) ∧
        GAction.geocodeLongRunningQuery ∈ mid) ∧
    (env.lockAvailable = false →
      GAction.lockAcquire ∈ (geocode_internal env dry_run).2 →
      (geocode_internal env dry_run).1.error = some already_geocoding_message ∧
      (geocode_internal env dry_run).1.aborted = true ∧
      GAction.alterTableAddColumns ∉ (geocode_internal env dry_run).2 ∧
      GAction.geocodeLongRunningQuery ∉ (geocode_internal env dry_run).2) := by
  by_cases hq : 0 < (set_pre_summary_info (summaryOf env)).required_quota ∧ ¬dry_run
  · cases hl : env.lockAvailable with
    | false =>
      have heq := geocode_internal_lock_fail env dry_run hq hl
      constructor
      · intro hm
        rw [heq] at hm
        exfalso
        rcases List.mem_append.mp hm with h | h
        · exact geocodeQuery_not_mem_prior env h
        · cases List.mem_singleton.mp h
      · intro _ _
        rw [heq]
        refine ⟨rfl, rfl, ?_, ?_⟩
        · intro hm
          rcases List.mem_append.mp hm with h | h
          · exact alter_not_mem_prior env h
          · cases List.mem_singleton.mp h
        · intro hm
          rcases List.mem_append.mp hm with h | h
          · exact geocodeQuery_not_mem_prior env h
          · cases List.mem_singleton.mp h
    | true =>
      cases hf : env.geocodeFails with
      | true =>
        have heq := geocode_internal_query_error env dry_run hq hl hf
        constructor
        · intro _
          rw [heq]
          refine ⟨rfl, (execute_prior_summary env).2,
            [GAction.alterTableAddColumns, GAction.geocodeLongRunningQuery], [],
            rfl, by decide⟩
        · intro hlf _
          cases hlf
      | false =>
        have heq := geocode_internal_success env dry_run hq hl hf
        constructor
        · intro _
          rw [heq]
          refine ⟨rfl, (execute_prior_summary env).2,
            [GAction.alterTableAddColumns, GAction.geocodeLongRunningQuery],
            [GAction.posteriorSummaryQuery], ?_, by decide⟩
          rw [List.append_assoc]
          rfl
        · intro hlf _
          cases hlf
  · have heq := geocode_internal_skip env dry_run hq
    constructor
    · intro hm
      rw [heq] at hm
      exact absurd hm (geocodeQuery_not_mem_prior env)
    · intro _ hm
      rw [heq] at hm
      exact absurd hm (lockAcquire_not_mem_prior env)

/-- An environment whose prior summary reports two new rows but whose
table lock is taken. -/
def envLockFail : GEnv :=
  ⟨some ⟨1, []⟩, some ⟨1, [⟨"new_nongeocoded", 2⟩]⟩, false, false, "", none, none⟩

/-- Witness for `geocoding_query_only_under_lock`: with the lock taken
and work to do, the run aborts with the lock error. -/
theorem geocoding_query_only_under_lock_witness :
    (geocode_internal envLockFail false).1.error = some already_geocoding_message ∧
    (geocode_internal envLockFail false).1.aborted = true := by
  have h := (geocoding_query_only_under_lock envLockFail false).2 rfl (by decide)
  exact ⟨h.1, h.2.1⟩

/-- C2: `_geocode` returns a metadata dictionary carrying the before /
after summary: the trace starts with the hash-column existence check
followed by the first-time summary query exactly when the hash column
does not yet exist (the prior summary query otherwise); the six counters
in the metadata are the summary counts; and the posterior summary query
runs, filling the post-geocoding count, exactly after a non-aborted
geocoding run. -/
theorem before_after_summary (env : GEnv) (dry_run : Bool) :
    (∃ rest, (geocode_internal env dry_run).2 =
      GAction.existsColumnQuery ::
        (if firstTime env then GAction.firstTimeSummaryQuery
         else GAction.priorSummaryQuery) :: rest) ∧
    (geocode_internal env dry_run).1.new_geocoded = summaryOf env "new_geocoded" ∧
    (geocode_internal env dry_run).1.new_nongeocoded = summaryOf env "new_nongeocoded" ∧
    (geocode_internal env dry_run).1.changed_geocoded = summaryOf env "changed_geocoded" ∧
    (geocode_internal env dry_run).1.changed_nongeocoded =
      summaryOf env "changed_nongeocoded" ∧
    (geocode_internal env dry_run).1.previously_geocoded =
      summaryOf env "previously_geocoded" ∧
    (geocode_internal env dry_run).1.previously_nongeocoded =
      summaryOf env "previously_nongeocoded" ∧
    (geocode_internal env dry_run).1.required_quota =
      summaryOf env "new_geocoded" + summaryOf env "new_nongeocoded" +
      summaryOf env "changed_geocoded" + summaryOf env "changed_nongeocoded" ∧
    ((geocode_internal env dry_run).1.aborted = false →
      0 < (geocode_internal env dry_run).1.required_quota → dry_run = false →
      GAction.posteriorSummaryQuery ∈ (geocode_internal env dry_run).2 ∧
      (geocode_internal env dry_run).1.successfully_geocoded =
        (set_post_summary_info env.posteriorResult
          (set_pre_summary_info (summaryOf env))).successfully_geocoded) ∧
    ((geocode_internal env dry_run).1.aborted = true →
      GAction.posteriorSummaryQuery ∉ (geocode_internal env dry_run).2) := by
  by_cases hq : 0 < (set_pre_summary_info (summaryOf env)).required_quota ∧ ¬dry_run
  · cases hl : env.lockAvailable with
    | false =>
      have heq := geocode_internal_lock_fail env dry_run hq hl
      rw [heq]
      refine ⟨⟨[GAction.lockAcquire], rfl⟩, rfl, rfl, rfl, rfl, rfl, rfl, rfl, ?_, ?_⟩
      · intro hab
        exact Bool.noConfusion hab
      · intro _ hm
        rcases List.mem_append.mp hm with h | h
        · exact posterior_not_mem_prior env h
        · cases List.mem_singleton.mp h
    | true =>
      cases hf : env.geocodeFails with
      | true =>
        have heq := geocode_internal_query_error env dry_run hq hl hf
        rw [heq]
        refine ⟨⟨[GAction.lockAcquire, GAction.alterTableAddColumns,
          GAction.geocodeLongRunningQuery, GAction.lockRelease], rfl⟩,
          rfl, rfl, rfl, rfl, rfl, rfl, rfl, ?_, ?_⟩
        · intro hab
          exact Bool.noConfusion hab
        · intro _ hm
          rcases List.mem_append.mp hm with h | h
          · exact posterior_not_mem_prior env h
          · exact absurd h (by decide)
      | false =>
        have heq := geocode_internal_success env dry_run hq hl hf
        have hfields := set_post_fields env.posteriorResult
          (set_pre_summary_info (summaryOf env))
        rw [heq]
        refine ⟨⟨[GAction.lockAcquire, GAction.alterTableAddColumns,
          GAction.geocodeLongRunningQuery, GAction.lockRelease,
          GAction.posteriorSummaryQuery], ?_⟩,
          hfields.1, hfields.2.1, hfields.2.2.1, hfields.2.2.2.1,
          hfields.2.2.2.2.1, hfields.2.2.2.2.2.1, hfields.2.2.2.2.2.2.1, ?_, ?_⟩
        · rw [List.append_assoc]
          rfl
        · intro _ _ _
          refine ⟨?_, rfl⟩
          simp
        · intro hab
          rw [hfields.2.2.2.2.2.2.2] at hab
          exact Bool.noConfusion hab
  · have heq := geocode_internal_skip env dry_run hq
    rw [heq]
    refine ⟨⟨[], rfl⟩, rfl, rfl, rfl, rfl, rfl, rfl, rfl, ?_, ?_⟩
    · intro _ hrq hdr
      exact absurd ⟨hrq, by simp [hdr]⟩ hq
    · intro hab
      exact Bool.noConfusion hab

/-- An environment for a successful geocoding run: work to do, lock
available, query succeeds, posterior summary reports two geocoded rows. -/
def envSuccess : GEnv :=
  ⟨some ⟨1, []⟩, some ⟨1, [⟨"new_nongeocoded", 2⟩]⟩, true, false, "", none,
   some ⟨1, [⟨"geocoded", 2⟩]⟩⟩

/-- Witness for `before_after_summary`: a non-aborted run executes the
posterior summary query. -/
theorem before_after_summary_witness :
    GAction.posteriorSummaryQuery ∈ (geocode_internal envSuccess false).2 := by
  have h := before_after_summary envSuccess false
  exact (h.2.2.2.2.2.2.2.2.1 (by decide) (by decide) rfl).1

/-- Witness for `dry_run_performs_no_geocoding` at a concrete
environment. -/
theorem dry_run_performs_no_geocoding_witness :
    (geocode ⟨none, none, true, false, "", none, none⟩ false true).1.data = none ∧
    GAction.geocodeLongRunningQuery ∉
      (geocode ⟨none, none, true, false, "", none, none⟩ false true).2 := by
  have h := dry_run_performs_no_geocoding ⟨none, none, true, false, "", none, none⟩ false
  exact ⟨h.1, h.2.2.2.2.1⟩

end GeocodingSvc

namespace CachedGeocode

lemma cached_geocode_run (hashFn : String → String → String → String → String)
    (df cache : List CRow) :
    cached_geocode hashFn df (some cache) true false false =
      Except.ok (CResult.cachedRun (df.map (mergeRow hashFn cache))
        [CAction.uploadDataframe df, CAction.addHashColumn,
         CAction.updateFromCache, CAction.deleteCacheTable,
         CAction.renameTmpToCache, CAction.geocodeCacheTable]) := by
  rfl

/-- The hash function used in concrete examples: the content hash of a
row is its street field. -/
def hashFnStreet : String → String → String → String → String :=
  fun s _ _ _ => s

/-- A one-row dataframe whose only row is unchanged with respect to
`cacheHit` (same content hash). -/
def dfUnchanged : List CRow :=
  [⟨"a", "", "", "", none, none⟩]

/-- A cache table holding the geocoded version of the row of
`dfUnchanged`: same stored hash, with a geometry. -/
def cacheHit : List CRow :=
  [⟨"a", "", "", "", some 1, some "a"⟩]

/-- The trace of the cached run on `dfUnchanged` against `cacheHit`. -/
def traceUnchanged : List CAction :=
  [CAction.uploadDataframe dfUnchanged, CAction.addHashColumn,
   CAction.updateFromCache, CAction.deleteCacheTable,
   CAction.renameTmpToCache, CAction.geocodeCacheTable]

/-- C1 counterexample: a dataframe whose single row is unchanged (its
content hash is stored in the cache table, so the claim's set of changed
rows is empty) is still uploaded whole to CARTO by `_cached_geocode`:
the uploaded rows are not a subset of the changed rows. -/
theorem cached_upload_counterexample :
    cached_geocode hashFnStreet dfUnchanged (some cacheHit) true false false =
      Except.ok (CResult.cachedRun
        (dfUnchanged.map (mergeRow hashFnStreet cacheHit)) traceUnchanged) ∧
    changedRowsSpec hashFnStreet dfUnchanged cacheHit = [] ∧
    uploadedRows traceUnchanged = dfUnchanged ∧
    dfUnchanged ≠ [] ∧
    ¬(∀ r ∈ uploadedRows traceUnchanged,
        r ∈ changedRowsSpec hashFnStreet dfUnchanged cacheHit) := by
  refine ⟨cached_geocode_run hashFnStreet dfUnchanged cacheHit,
    by decide, by decide, by decide, by decide⟩

/-- C1 (amended): `_cached_geocode` uploads the entire dataframe to a
temporary table; the content-hash diff against the cache table instead
controls the merge, so that exactly the changed rows (hash not stored in
the cache) are left without a cached hash, to be geocoded afterwards. -/
theorem cached_geocode_uploads_whole_dataframe
    (hashFn : String → String → String → String → String)
    (df cache : List CRow) (hdf : ∀ r ∈ df, r.gc_hash = none) :
    ∀ merged trace,
      cached_geocode hashFn df (some cache) true false false =
        Except.ok (CResult.cachedRun merged trace) →
      uploadedRows trace = df ∧
      merged = df.map (mergeRow hashFn cache) ∧
      (∀ r ∈ df, (r ∈ changedRowsSpec hashFn df cache ↔
        (mergeRow hashFn cache r).gc_hash = none)) := by
  intro merged trace h
  rw [cached_geocode_run hashFn df cache] at h
  injection h with h'
  injection h' with h1 h2
  subst h1
  subst h2
  refine ⟨?_, rfl, ?_⟩
  · simp [uploadedRows]
  · intro r hr
    cases hfind : cache.find? (fun c => c.gc_hash = some (hashOf hashFn r)) with
    | none =>
      have hall := List.find?_eq_none.mp hfind
      constructor
      · intro _
        unfold mergeRow
        rw [hfind]
        exact hdf r hr
      · intro _
        unfold changedRowsSpec
        rw [List.mem_filter]
        refine ⟨hr, ?_⟩
        rw [decide_eq_true_eq]
        intro hany
        obtain ⟨c, hc, hcp⟩ := List.any_eq_true.mp hany
        exact hall c hc hcp
    | some c =>
      have hp := List.find?_some hfind
      have hmem := List.mem_of_find?_eq_some hfind
      have hceq : c.gc_hash = some (hashOf hashFn r) := of_decide_eq_true hp
      constructor
      · intro hch
        exfalso
        unfold changedRowsSpec at hch
        rw [List.mem_filter] at hch
        have hnot := of_decide_eq_true hch.2
        exact hnot (List.any_eq_true.mpr ⟨c, hmem, hp⟩)
      · intro hg
        exfalso
        unfold mergeRow at hg
        rw [hfind] at hg
        simp only at hg
        rw [hceq] at hg
        cases hg

/-- Witness for `cached_geocode_uploads_whole_dataframe` at the concrete
unchanged dataframe. -/
theorem cached_geocode_uploads_whole_dataframe_witness :
    uploadedRows traceUnchanged = dfUnchanged ∧
    ¬(⟨"a", "", "", "", none, none⟩ : CRow) ∈
      changedRowsSpec hashFnStreet dfUnchanged cacheHit := by
  have h := cached_geocode_uploads_whole_dataframe hashFnStreet dfUnchanged cacheHit
    (by decide) (dfUnchanged.map (mergeRow hashFnStreet cacheHit)) traceUnchanged
    (cached_geocode_run hashFnStreet dfUnchanged cacheHit)
  refine ⟨h.1, ?_⟩
  intro hm
  have hiff := (h.2.2 ⟨"a", "", "", "", none, none⟩ (by decide)).mp hm
  rw [show (mergeRow hashFnStreet cacheHit ⟨"a", "", "", "", none, none⟩).gc_hash =
    some "a" from by decide] at hiff
  cases hiff

/-- C3: on the cached path, after uploading the dataframe and adding the
hash column, the single `UPDATE ... FROM` gives every row whose computed
hash equals a stored cache hash that cache row's geometry and hash
(rows without a matching hash are untouched), and only then is the cache
table deleted and the temporary table renamed to it, before the renamed
table is re-geocoded. -/
theorem cached_merge_update_then_rename
    (hashFn : String → String → String → String → String)
    (df cache : List CRow) :
    cached_geocode hashFn df (some cache) true false false =
      Except.ok (CResult.cachedRun (df.map (mergeRow hashFn cache))
        [CAction.uploadDataframe df, CAction.addHashColumn,
         CAction.updateFromCache, CAction.deleteCacheTable,
         CAction.renameTmpToCache, CAction.geocodeCacheTable]) ∧
    (∀ r ∈ df, (∃ c ∈ cache, c.gc_hash = some (hashOf hashFn r)) →
      ∃ c ∈ cache, c.gc_hash = some (hashOf hashFn r) ∧
        mergeRow hashFn cache r =
          { r with the_geom := c.the_geom, gc_hash := c.gc_hash }) ∧
    (∀ r ∈ df, (∀ c ∈ cache, c.gc_hash ≠ some (hashOf hashFn r)) →
      mergeRow hashFn cache r = r) ∧
    (∀ merged trace,
      cached_geocode hashFn df (some cache) true false false =
        Except.ok (CResult.cachedRun merged trace) →
      trace.count CAction.updateFromCache = 1 ∧
      trace.indexOf (CAction.uploadDataframe df) <
        trace.indexOf CAction.updateFromCache ∧
      trace.indexOf CAction.updateFromCache <
        trace.indexOf CAction.deleteCacheTable ∧
      trace.indexOf CAction.deleteCacheTable <
        trace.indexOf CAction.renameTmpToCache ∧
      trace.indexOf CAction.renameTmpToCache <
        trace.indexOf CAction.geocodeCacheTable) := by
  refine ⟨cached_geocode_run hashFn df cache, ?_, ?_, ?_⟩
  · intro r hr hex
    cases hfind : cache.find? (fun c => c.gc_hash = some (hashOf hashFn r)) with
    | none =>
      exfalso
      obtain ⟨c, hc, hceq⟩ := hex
      exact List.find?_eq_none.mp hfind c hc (decide_eq_true hceq)
    | some c =>
      have hp := List.find?_some hfind
      refine ⟨c, List.mem_of_find?_eq_some hfind, of_decide_eq_true hp, ?_⟩
      unfold mergeRow
      rw [hfind]
  · intro r hr hall
    have hfind : cache.find? (fun c => c.gc_hash = some (hashOf hashFn r)) = none := by
      rw [List.find?_eq_none]
      intro c hc hcp
      exact hall c hc (of_decide_eq_true hcp)
    unfold mergeRow
    rw [hfind]
  · intro merged trace h
    rw [cached_geocode_run hashFn df cache] at h
    injection h with h'
    injection h' with h1 h2
    subst h2
    refine ⟨?_, ?_, ?_, ?_, ?_⟩ <;> simp [List.count_cons, List.indexOf_cons]

/-- Witness for `cached_merge_update_then_rename`: ordering of the trace
on the concrete unchanged dataframe. -/
theorem cached_merge_update_then_rename_witness :
    traceUnchanged.indexOf CAction.updateFromCache <
      traceUnchanged.indexOf CAction.deleteCacheTable := by
  have h := (cached_merge_update_then_rename hashFnStreet dfUnchanged cacheHit).2.2.2
    (dfUnchanged.map (mergeRow hashFnStreet cacheHit)) traceUnchanged
    (cached_geocode_run hashFnStreet dfUnchanged cacheHit)
  exact h.2.2.1

end CachedGeocode
